import Mathlib

/-!
Verification development for the kamaki command-line client
(command registration, dispatch, configuration layers, storage client
preconditions, config file writing).

Python dictionaries (and OrderedDict) are embedded as association lists:
lookup takes the first matching key, update replaces in place or appends,
which preserves both the value semantics and the insertion order of the
ordered dictionaries used by the source.  Python strings are Lean strings;
Python None is represented with Option.
-/

set_option maxRecDepth 4000

instance {ε α : Type} [DecidableEq ε] [DecidableEq α] : DecidableEq (Except ε α) := fun x y =>
  match x, y with
  | Except.ok a, Except.ok b =>
    if h : a = b then isTrue (by rw [h]) else isFalse (fun hh => by cases hh; exact h rfl)
  | Except.error a, Except.error b =>
    if h : a = b then isTrue (by rw [h]) else isFalse (fun hh => by cases hh; exact h rfl)
  | Except.ok _, Except.error _ => isFalse (fun hh => by cases hh)
  | Except.error _, Except.ok _ => isFalse (fun hh => by cases hh)

/-- Ordered-dictionary lookup: first entry with the given key. -/
def odGet {α β : Type} [BEq α] (l : List (α × β)) (k : α) : Option β :=
  (l.find? (fun e => e.1 == k)).map (fun e => e.2)

/-- Ordered-dictionary update: replace in place if the key exists, else append. -/
def odSet {α β : Type} [BEq α] : List (α × β) → α → β → List (α × β)
  | [], k, v => [(k, v)]
  | (k0, v0) :: rest, k, v =>
    if k0 == k then (k, v) :: rest else (k0, v0) :: odSet rest k v

/-- Python is-whitespace test for the characters relevant to str.split(). -/
def isWSChar (c : Char) : Bool :=
  c = ' ' || c = '\t' || c = '\n' || c = '\r'

/-- Worker for pySplit, accumulating the current word in reverse. -/
def pySplitGo : List Char → List Char → List String
  | [], acc => if acc.isEmpty then [] else [String.mk acc.reverse]
  | c :: rest, acc =>
    if isWSChar c then
      (if acc.isEmpty then [] else [String.mk acc.reverse]) ++ pySplitGo rest []
    else
      pySplitGo rest (c :: acc)

/-- Python str.split() with no argument: split on runs of whitespace. -/
def pySplit (s : String) : List String :=
  pySplitGo s.toList []

/-- Python str.join with a single-space separator. -/
def sjoin : List String → String
  | [] => ""
  | [x] => x
  | x :: y :: ys => x ++ " " ++ sjoin (y :: ys)

/-- Worker for Python str.partition on the underscore character:
returns the part before the first underscore and the remainder,
or none when the string has no underscore. -/
def partitionUnderscore : List Char → Option (List Char × List Char)
  | [] => none
  | c :: rest =>
    if c = '_' then some ([], rest)
    else
      match partitionUnderscore rest with
      | some p => some (c :: p.1, p.2)
      | none => none

/-- Python clsName.partition with separator underscore, keeping only the
success information the source uses (prefix and remainder; the separator
field is empty exactly when the result here is none). -/
def pyPartition (s : String) : Option (String × String) :=
  match partitionUnderscore s.toList with
  | some p => some (String.mk p.1, String.mk p.2)
  | none => none

/-- Python `a or b` for an optional string a and a string b:
a None or empty-string left operand falls through to b. -/
def pyOrStr (a : Option String) (b : String) : String :=
  match a with
  | some s => if s = "" then b else s
  | none => b

/-- Python `a or b` where both operands are optional strings. -/
def pyOrOpt (a : Option String) (b : Option String) : Option String :=
  match a with
  | some s => if s = "" then b else some s
  | none => b

namespace KConfig

/-!
Embedding of kamaki/cli/config.py (the sectioned Config class built on
RawConfigParser).  RawConfigParser lowercases option names on both set and
get (its optionxform); section names are case sensitive.  Both of the
NoSectionError and NoOptionError exceptions raised by RawConfigParser.get
are caught by Config.get and produce the same fallback, so the persisted
lookup is embedded as one nested optional lookup.
-/

/-- The DEFAULTS dictionary of kamaki/cli/config.py. -/
def DEFAULTS (sec opt : String) : Option String :=
  if sec = "global" then
    if opt = "colors" then some "on"
    else if opt = "token" then some ""
    else none
  else if sec = "config" then
    if opt = "cli" then some "config_cli"
    else if opt = "description" then some "Configuration commands"
    else none
  else none

/-- Config state: the persisted RawConfigParser store (section to option to
value) and the runtime overrides dict (section to option to value, where a
stored value may itself be Python None). -/
structure Config where
  persisted : List (String × List (String × String))
  overrides : List (String × List (String × Option String))
deriving DecidableEq

/-- The composite dict access self overrides.get(section, dict()).get(option):
returns none when the section is absent, the option is absent, or the stored
value is Python None. -/
def ovLookup (ov : List (String × List (String × Option String)))
    (sec opt : String) : Option String :=
  Option.join ((odGet ov sec).bind (fun d => odGet d opt))

/-- RawConfigParser.get seen through the exception handler of Config.get:
none when the section or the option is missing. -/
def persLookup (p : List (String × List (String × String)))
    (sec opt : String) : Option String :=
  (odGet p sec).bind (fun d => odGet d opt.toLower)

/-- Config.get: runtime override if set to a non-None value, else the
persisted value, else the built-in default, else absent. -/
def Config.get (c : Config) (sec opt : String) : Option String :=
  match ovLookup c.overrides sec opt with
  | some value => some value
  | none =>
    match persLookup c.persisted sec opt with
    | some v => some v
    | none => DEFAULTS sec opt

/-- Config.set: add the section if missing, then store the value in the
persisted layer (options lowercased by RawConfigParser). -/
def Config.set (c : Config) (sec opt value : String) : Config :=
  ⟨odSet c.persisted sec (odSet ((odGet c.persisted sec).getD []) opt.toLower value),
   c.overrides⟩

/-- Config.override: store the value (possibly Python None) in the runtime
overrides dict only. -/
def Config.override (c : Config) (sec opt : String) (value : Option String) :
    Config :=
  ⟨c.persisted,
   odSet c.overrides sec (odSet ((odGet c.overrides sec).getD []) opt value)⟩

end KConfig

namespace KCli

/-!
Embedding of the registration and dispatch framework of kamaki/cli.py:
the command class decorator (group/name splitting, syntax derivation,
registration into the ordered two-level registry), the availability
filter, and the main dispatcher.
-/

/-- Python x.replace of the underscore character by a space (the pattern
is a single character, so the replacement is characterwise). -/
def replUnderscore (x : String) : String :=
  String.mk (x.toList.map (fun c => if c = '_' then ' ' else c))

/-- Rendering of one required positional parameter in a derived syntax
string: angle brackets, underscores replaced by spaces. -/
def renderReq (x : String) : String :=
  "<" ++ replUnderscore x ++ ">"

/-- Rendering of one optional positional parameter in a derived syntax
string: square brackets, underscores replaced by spaces. -/
def renderOpt (x : String) : String :=
  "[" ++ replUnderscore x ++ "]"

/-- Syntax derivation of the command decorator from the argument
specification of a main method: specArgs is inspect.getargspec(main).args
(the implicit receiver included), nd the number of trailing parameters
that carry default values.  Required parameters are joined first, then the
optional ones, and empty halves are dropped before the final join. -/
def deriveSyn (specArgs : List String) (nd : Nat) : String :=
  let args := specArgs.drop 1
  let n := args.length - nd
  let required := sjoin ((args.take n).map renderReq)
  let optional := sjoin ((args.drop n).map renderOpt)
  sjoin (([required, optional]).filter (fun x => x ≠ ""))

/-- The rendering described by the specification: every parameter rendered
individually and the whole list space-joined, required before optional. -/
def specSyn (specArgs : List String) (nd : Nat) : String :=
  let args := specArgs.drop 1
  let n := args.length - nd
  sjoin ((args.take n).map renderReq ++ (args.drop n).map renderOpt)

/-- The attributes the decorator stores on a command class, together with
the arity data of its main method used at invocation time. -/
structure CmdSpec where
  api : Option String
  group : Option String
  name : String
  descr : Option String
  syn : String
  nargs : Nat
  ndefaults : Nat
  hasUpdOpts : Bool
deriving DecidableEq

/-- The command class decorator of kamaki/cli.py: split the class name on
the first underscore (group None when there is none), apply the explicit
decorator arguments through Python or-chaining, and derive the syntax
string from the main signature unless an explicit one is given (the source
tests `cls.syntax is None`, so even an empty explicit string is kept). -/
def command (api groupArg nameArg descrArg synArg : Option String)
    (clsName : String) (doc : Option String)
    (specArgs : List String) (nd : Nat) (hasUpd : Bool) : CmdSpec :=
  let p := pyPartition clsName
  let grp : Option String := p.map (fun q => q.1)
  let cmd : String :=
    match p with
    | some q => q.2
    | none => clsName
  ⟨api,
   pyOrOpt groupArg grp,
   pyOrStr nameArg cmd,
   pyOrOpt descrArg doc,
   (match synArg with
    | some s0 => s0
    | none => deriveSyn specArgs nd),
   (specArgs.drop 1).length,
   nd,
   hasUpd⟩

/-- The process-wide _commands registry: an ordered mapping from group
(None for ungrouped commands) to an ordered mapping from command name to
the registered class. -/
abbrev Registry : Type :=
  List (Option String × List (String × CmdSpec))

/-- Registration performed by the decorator: create the inner ordered
mapping on first use of a group, then store the class under its name
(last registration wins). -/
def register (reg : Registry) (spec : CmdSpec) : Registry :=
  odSet reg spec.group (odSet ((odGet reg spec.group).getD []) spec.name spec)

/-- One declared command class of kamaki/cli.py: decorator arguments, class
name, docstring, args of main (receiver included), number of defaults, and
whether the class defines update options for the second parse. -/
structure ClsDecl where
  api : Option String
  clsName : String
  doc : String
  specArgs : List String
  nd : Nat
  hasUpd : Bool

/-- The command classes declared in kamaki/cli.py, in source order.  All of
them pass only the api decorator argument. -/
def sourceCommands : List ClsDecl :=
  [⟨none, "config_list", "list configuration options", ["self"], 0, false⟩,
   ⟨none, "config_get", "get a configuration option", ["self", "key"], 0, false⟩,
   ⟨none, "config_set", "set a configuration option", ["self", "key", "val"], 0, false⟩,
   ⟨none, "config_del", "delete a configuration option", ["self", "key"], 0, false⟩,
   ⟨some "nova", "server_list", "list servers", ["self"], 0, true⟩,
   ⟨some "nova", "server_info", "get server details", ["self", "server_id"], 0, false⟩,
   ⟨some "nova", "server_create", "create server",
     ["self", "name", "flavor_id", "image_id"], 0, true⟩,
   ⟨some "nova", "server_rename", "update server name",
     ["self", "server_id", "new_name"], 0, false⟩,
   ⟨some "nova", "server_delete", "delete server", ["self", "server_id"], 0, false⟩,
   ⟨some "nova", "server_reboot", "reboot server", ["self", "server_id"], 0, true⟩,
   ⟨some "synnefo", "server_start", "start server", ["self", "server_id"], 0, false⟩,
   ⟨some "synnefo", "server_shutdown", "shutdown server", ["self", "server_id"], 0, false⟩,
   ⟨some "synnefo", "server_console", "get a VNC console", ["self", "server_id"], 0, false⟩,
   ⟨some "synnefo", "server_firewall", "set the firewall profile",
     ["self", "server_id", "profile"], 0, false⟩,
   ⟨some "synnefo", "server_addr", "list server addresses",
     ["self", "server_id", "network"], 1, false⟩,
   ⟨some "nova", "server_meta", "get server metadata",
     ["self", "server_id", "key"], 1, false⟩,
   ⟨some "nova", "server_addmeta", "add server metadata",
     ["self", "server_id", "key", "val"], 0, false⟩,
   ⟨some "nova", "server_setmeta", "update server metadata",
     ["self", "server_id", "key", "val"], 0, false⟩,
   ⟨some "nova", "server_delmeta", "delete server metadata",
     ["self", "server_id", "key"], 0, false⟩,
   ⟨some "synnefo", "server_stats", "get server statistics", ["self", "server_id"], 0, false⟩,
   ⟨some "nova", "flavor_list", "list flavors", ["self"], 0, true⟩,
   ⟨some "nova", "flavor_info", "get flavor details", ["self", "flavor_id"], 0, false⟩,
   ⟨some "nova", "image_list", "list images", ["self"], 0, true⟩,
   ⟨some "nova", "image_info", "get image details", ["self", "image_id"], 0, false⟩,
   ⟨some "nova", "image_create", "create image", ["self", "server_id", "name"], 0, false⟩,
   ⟨some "nova", "image_delete", "delete image", ["self", "image_id"], 0, false⟩,
   ⟨some "nova", "image_meta", "get image metadata", ["self", "image_id", "key"], 1, false⟩,
   ⟨some "nova", "image_addmeta", "add image metadata",
     ["self", "image_id", "key", "val"], 0, false⟩,
   ⟨some "nova", "image_setmeta", "update image metadata",
     ["self", "image_id", "key", "val"], 0, false⟩,
   ⟨some "nova", "image_delmeta", "delete image metadata",
     ["self", "image_id", "key"], 0, false⟩,
   ⟨some "synnefo", "network_list", "list networks", ["self"], 0, true⟩,
   ⟨some "synnefo", "network_create", "create a network", ["self", "name"], 0, false⟩,
   ⟨some "synnefo", "network_info", "get network details", ["self", "network_id"], 0, false⟩,
   ⟨some "synnefo", "network_rename", "update network name",
     ["self", "network_id", "new_name"], 0, false⟩,
   ⟨some "synnefo", "network_delete", "delete a network", ["self", "network_id"], 0, false⟩,
   ⟨some "synnefo", "network_connect", "connect a server to a network",
     ["self", "server_id", "network_id"], 0, false⟩,
   ⟨some "synnefo", "network_disconnect", "disconnect a server from a network",
     ["self", "server_id", "network_id"], 0, false⟩,
   ⟨some "glance", "glance_list", "list images", ["self"], 0, false⟩]

/-- The registry as populated by the decorators at import time. -/
def kamakiRegistry : Registry :=
  sourceCommands.foldl
    (fun reg d =>
      register reg
        (command d.api none none none none d.clsName (some d.doc) d.specArgs d.nd d.hasUpd))
    []

/-- Visibility of one command class under an enabled-API list:
cls.api is None or cls.api in apis. -/
def cmdVisible (spec : CmdSpec) (apis : List String) : Bool :=
  match spec.api with
  | none => true
  | some a => apis.contains a

/-- The available_commands loop of main: names of the visible commands of a
group, in registration order. -/
def availableCommands (cmds : List (String × CmdSpec)) (apis : List String) :
    List String :=
  (cmds.filter (fun e => cmdVisible e.2 apis)).map (fun e => e.1)

/-- The available_groups loop of main: groups containing at least one
visible command, in registration order. -/
def availableGroups (reg : Registry) (apis : List String) :
    List (Option String) :=
  (reg.filter (fun e => e.2.any (fun c => cmdVisible c.2 apis))).map (fun e => e.1)

end KCli

/-- A Python value as handled by the flat configuration store of the
dispatcher: None, a string, or a list of strings (what optparse produces
for the repeatable api flag). -/
inductive PyVal : Type
  | pnone : PyVal
  | pstr : String → PyVal
  | plist : List String → PyVal
deriving DecidableEq

/-- Modelled from the spec: the flat configuration store of kamaki/config.py
(imported by kamaki/cli.py) is not under src.  Per the specification it
exposes get, set, delete, override and items over one flat key space with
override over file over default precedence, and, matching the sectioned
Config that is under src, an override whose value is None behaves as if no
override were set.  State: file values (strings from the config file) and
the runtime overrides. -/
structure FlatConfig where
  fileVals : List (String × String)
  overrides : List (String × PyVal)
deriving DecidableEq

/-- The CONFIG_DEFAULTS dictionary of kamaki/cli.py: the defaults also
determine the allowed keys. -/
def CONFIG_DEFAULTS (k : String) : Option String :=
  if k = "apis" then some "nova synnefo glance plankton"
  else if k = "token" then some ""
  else if k = "compute_url" then some "https://okeanos.grnet.gr/api/v1"
  else if k = "images_url" then some "https://okeanos.grnet.gr/plankton"
  else none

/-- The keys of CONFIG_DEFAULTS, iterated by the override loop of main. -/
def defaultKeys : List String :=
  ["apis", "token", "compute_url", "images_url"]

/-- Modelled from the spec: flat Config.get without the override layer
(file value if present, else built-in default, else the missing value). -/
def flatGetBase (c : FlatConfig) (k : String) : PyVal :=
  match odGet c.fileVals k with
  | some s => PyVal.pstr s
  | none =>
    match CONFIG_DEFAULTS k with
    | some s => PyVal.pstr s
    | none => PyVal.pnone

/-- Modelled from the spec: flat Config.get with override over file over
default precedence; an override set to None falls through. -/
def flatGet (c : FlatConfig) (k : String) : PyVal :=
  match odGet c.overrides k with
  | some v => if v = PyVal.pnone then flatGetBase c k else v
  | none => flatGetBase c k

/-- Modelled from the spec: flat Config.override mutates only the runtime
layer. -/
def flatOverride (c : FlatConfig) (k : String) (v : PyVal) : FlatConfig :=
  ⟨c.fileVals, odSet c.overrides k v⟩

namespace KCli

/-- The option values produced by the tolerant first parse of main that the
dispatcher consumes: flags absent on the command line are None. -/
structure ParsedOptions where
  help : Bool
  apis : Option (List String)
  compute_url : Option String
  images_url : Option String
  token : Option String
  verbose : Bool
  debug : Bool
deriving DecidableEq

/-- getattr(options, key) for the keys of CONFIG_DEFAULTS, as a PyVal. -/
def optVal (o : ParsedOptions) (k : String) : PyVal :=
  if k = "apis" then
    match o.apis with
    | some l => PyVal.plist l
    | none => PyVal.pnone
  else if k = "token" then
    match o.token with
    | some s => PyVal.pstr s
    | none => PyVal.pnone
  else if k = "compute_url" then
    match o.compute_url with
    | some s => PyVal.pstr s
    | none => PyVal.pnone
  else if k = "images_url" then
    match o.images_url with
    | some s => PyVal.pstr s
    | none => PyVal.pnone
  else PyVal.pnone

/-- What the invocation of the resolved main method does, abstracting the
handler body: a normal return (None, or an integer as in server_create),
a TypeError (either a call arity mismatch or one raised inside the body),
a ClientError with a message and details, or any other exception raised by
the body (for example the ValueError of int(server_id) on a non-numeric
argument), which no except clause of main catches. -/
inductive HandlerOutcome : Type
  | ok : Option Nat → HandlerOutcome
  | typeErrorRaised : HandlerOutcome
  | clientErrorRaised : String → String → HandlerOutcome
  | otherErrorRaised : String → HandlerOutcome
deriving DecidableEq

/-- Logging levels used by the dispatcher. -/
inductive LogLevel : Type
  | errorLvl : LogLevel
  | infoLvl : LogLevel
deriving DecidableEq

/-- One dispatcher invocation: positional arguments and option values of
the tolerant first parse (argv[0] included, as the source parses sys.argv),
positional arguments and help flag of the command-specific second parse,
whether that second parse fails (the strict parser.error is restored
before it, so a malformed option makes optparse print usage and raise
SystemExit(2)), whether loading the configuration raised ConfigError, the
values read from the configuration file, and the behaviour of the resolved
handler body. -/
structure Invocation where
  argsFirst : List String
  opts : ParsedOptions
  argsSecond : List String
  helpSecond : Bool
  secondParseFails : Bool
  configError : Bool
  fileVals : List (String × String)
  body : HandlerOutcome
deriving DecidableEq

/-- How main ends: a Python return value, an uncaught exception that
escapes main (named by the exception class), or a SystemExit with the
given status raised by optparse at the strict second parse (the process
exits with that status; the entry point never sees a return value). -/
inductive MainOutcome : Type
  | ret : Option Nat → MainOutcome
  | crash : String → MainOutcome
  | sysExit : Nat → MainOutcome
deriving DecidableEq

/-- Observable output of one run: number of print_help calls, the groups
listed by print_groups, the command names listed by print_commands, and the
logging calls issued (level and message). -/
structure RunOutput where
  helpPrints : Nat
  groupsListed : Option (List (Option String))
  commandsListed : Option (List String)
  logs : List (LogLevel × String)
deriving DecidableEq

/-- Empty run output. -/
def noOut : RunOutput :=
  ⟨0, none, none, []⟩

/-- The configuration after the override loop of main: every key of
CONFIG_DEFAULTS overridden with the corresponding option value. -/
def cfgOverridden (inv : Invocation) : FlatConfig :=
  defaultKeys.foldl (fun c k => flatOverride c k (optVal inv.opts k))
    ⟨inv.fileVals, []⟩

/-- The value whose split() produces the enabled-API list:
config.get of the apis key after the override loop. -/
def enabledApisVal (inv : Invocation) : PyVal :=
  flatGet (cfgOverridden inv) "apis"

/-- cmd.main called with the positional arguments after group and command:
a wrong argument count raises TypeError, otherwise the body outcome
happens.  nargs and ndefaults come from the main signature. -/
def invokeMain (spec : CmdSpec) (nGiven : Nat) (body : HandlerOutcome) :
    HandlerOutcome :=
  if nGiven < spec.nargs - spec.ndefaults || spec.nargs < nGiven then
    HandlerOutcome.typeErrorRaised
  else body

/-- The dispatcher from group resolution onward, given the enabled-API
list: group resolution, command resolution, the strict second parse (a
failure there is a SystemExit(2) from optparse), second-parse help, and
handler invocation with its TypeError and ClientError handlers; any other
exception of the body escapes uncaught. -/
def mainResolve (reg : Registry) (inv : Invocation) (apis : List String) :
    MainOutcome × RunOutput :=
  let avG := availableGroups reg apis
  if inv.argsFirst.length < 2 then
    (MainOutcome.ret (some 0), ⟨1, some avG, none, []⟩)
  else
    let grp := inv.argsFirst.getD 1 ""
    if avG.contains (some grp) then
      let cmds := (odGet reg (some grp)).getD []
      let avC := availableCommands cmds apis
      if inv.argsFirst.length < 3 then
        (MainOutcome.ret (some 0), ⟨1, none, some avC, []⟩)
      else
        let nm := inv.argsFirst.getD 2 ""
        if avC.contains nm then
          match odGet cmds nm with
          | none => (MainOutcome.crash "KeyError", noOut)
          | some spec =>
            if inv.secondParseFails then
              (MainOutcome.sysExit 2, noOut)
            else if inv.helpSecond then
              (MainOutcome.ret (some 0), ⟨1, none, none, []⟩)
            else
              match invokeMain spec (inv.argsSecond.drop 3).length inv.body with
              | HandlerOutcome.ok r => (MainOutcome.ret r, noOut)
              | HandlerOutcome.typeErrorRaised =>
                (MainOutcome.ret (some 1), ⟨1, none, none, []⟩)
              | HandlerOutcome.clientErrorRaised m d =>
                (MainOutcome.ret (some 2),
                 ⟨0, none, none, [(LogLevel.errorLvl, m), (LogLevel.infoLvl, d)]⟩)
              | HandlerOutcome.otherErrorRaised exc =>
                (MainOutcome.crash exc, noOut)
        else
          (MainOutcome.ret (some 1), ⟨1, none, some avC, []⟩)
    else
      (MainOutcome.ret (some 1), ⟨1, some avG, none, []⟩)

/-- The main function of kamaki/cli.py: ConfigError handling, the override
loop, the apis split (an AttributeError escapes uncaught when the value
under the apis key is not a string), then resolution and invocation. -/
def mainRun (reg : Registry) (inv : Invocation) : MainOutcome × RunOutput :=
  if inv.configError then
    (MainOutcome.ret (some 1), ⟨0, none, none, [(LogLevel.errorLvl, "ConfigError")]⟩)
  else
    match enabledApisVal inv with
    | PyVal.pstr s => mainResolve reg inv (pySplit s)
    | _ => (MainOutcome.crash "AttributeError", noOut)

/-- The process exit status applied to the return value of main by the
entry point: err = main() or 0. -/
def pyExit (v : Option Nat) : Nat :=
  v.getD 0

/-- Modelled from the spec: the accumulation of the repeatable api flag by
the optparse append action during the first parse (optparse itself is
standard library code, not part of this repository).  Every occurrence of
the flag consumes the following argument and appends it; the option value
stays None when the flag never occurs. -/
def collectApis : List String → List String
  | [] => []
  | a :: rest =>
    if a = "--api" then
      match rest with
      | [] => []
      | v :: rest2 => v :: collectApis rest2
    else collectApis rest

/-- The api option value produced by the first parse for a given argv. -/
def apisOptOf (argv : List String) : Option (List String) :=
  match collectApis argv with
  | [] => none
  | l => some l

end KCli

namespace KStorage

/-!
Embedding of kamaki/clients/storage.py.  The HTTP base Client class and the
helper functions of kamaki/clients/utils.py are not under src; they are
modelled from the specification: each method issues one HTTP call with an
expected success status or small set of acceptable statuses, and any other
status is mapped to a ClientError carrying a short message, the offending
status code, and details extracted from the response body.  Every storage
operation returns the (unchanged) client, the list of HTTP requests it
issued, and its result or ClientError.
-/

/-- ClientError: a remote-call failure carrying message, status and
optional details. -/
structure ClientError where
  message : String
  status : Option Nat
  details : Option String
deriving DecidableEq

/-- HTTP method of a request. -/
inductive HMethod : Type
  | hget : HMethod
  | hhead : HMethod
  | hput : HMethod
  | hpost : HMethod
  | hdelete : HMethod
deriving DecidableEq

/-- One HTTP request as issued by the storage client: method, path, query
parameters, extra headers, and body data. -/
structure HRequest where
  meth : HMethod
  path : String
  params : List (String × String)
  hdrs : List (String × String)
  body : String
deriving DecidableEq

/-- One HTTP response: status code, headers, and body (raw or json). -/
structure HResponse where
  status : Nat
  hdrs : List (String × String)
  payload : String
deriving DecidableEq

/-- The remote side, mapping each request to its response. -/
abbrev Oracle : Type :=
  HRequest → HResponse

/-- Modelled from the spec: the request primitive of the HTTP base Client
(kamaki/clients/ init is not under src).  The expected statuses are
accepted; any other status becomes a ClientError with the status code and
the response body as details. -/
def doRequest (oracle : Oracle) (req : HRequest) (success : List Nat) :
    Except ClientError HResponse :=
  let r := oracle req
  if success.contains r.status then Except.ok r
  else Except.error ⟨"request failed", some r.status, some r.payload⟩

/-- Modelled from the spec: path4url of kamaki/clients/utils.py (not under
src) joins its arguments into a URL path; the exact encoding is immaterial
to the claims proved here. -/
def path4url (parts : List String) : String :=
  String.join (parts.map (fun p => "/" ++ p))

/-- Modelled from the spec: prefix_keys of kamaki/clients/utils.py (not
under src) prepends a prefix to every key. -/
def prefix_keys (l : List (String × String)) (p : String) :
    List (String × String) :=
  l.map (fun kv => (p ++ kv.1, kv.2))

/-- Modelled from the spec: filter_out of kamaki/clients/utils.py (not
under src) with exactMatch drops the entries whose key equals the given
one. -/
def filter_out (l : List (String × String)) (k : String) :
    List (String × String) :=
  l.filter (fun kv => kv.1 ≠ k)

/-- Modelled from the spec: filter_in of kamaki/clients/utils.py (not under
src) keeps the entries whose key starts with the given prefix. -/
def filter_in (l : List (String × String)) (p : String) :
    List (String × String) :=
  l.filter (fun kv => p.isPrefixOf kv.1)

/-- The storage client state: base url, token, and the optional account and
container context.  None and the empty string are both falsy in the
assertions below, exactly as `not self.account` is in Python. -/
structure StorageClient where
  base_url : String
  token : String
  account : Option String
  container : Option String
deriving DecidableEq

/-- Python falsiness of an optional string: None or empty. -/
def pyFalsy (o : Option String) : Bool :=
  match o with
  | none => true
  | some s => s = ""

/-- The account string used to build paths (only reached when set). -/
def acc (c : StorageClient) : String :=
  c.account.getD ""

/-- The container string used to build paths (only reached when set). -/
def cont (c : StorageClient) : String :=
  c.container.getD ""

/-- assert_account: ClientError when the account is unset or empty. -/
def assert_account (c : StorageClient) : Option ClientError :=
  if pyFalsy c.account then some ⟨"Please provide an account", none, none⟩
  else none

/-- assert_container: assert_account first, then ClientError when the
container is unset or empty. -/
def assert_container (c : StorageClient) : Option ClientError :=
  match assert_account c with
  | some e => some e
  | none =>
    if pyFalsy c.container then some ⟨"Please provide a container", none, none⟩
    else none

/-- Result of one storage operation: the client (storage methods never
reassign their context fields, so it is returned unchanged), the issued
requests in order, and the outcome. -/
abbrev SRes (α : Type) : Type :=
  StorageClient × List HRequest × Except ClientError α

/-- get_account_info: HEAD on the account, 204 or 401 accepted, 401 turned
into a no-authorization ClientError. -/
def get_account_info (c : StorageClient) (oracle : Oracle) :
    SRes (List (String × String)) :=
  match assert_account c with
  | some e => (c, [], Except.error e)
  | none =>
    let req : HRequest := ⟨HMethod.hhead, path4url [acc c], [], [], ""⟩
    match doRequest oracle req [204, 401] with
    | Except.error e => (c, [req], Except.error e)
    | Except.ok r =>
      if r.status = 401 then
        (c, [req], Except.error ⟨"No authorization", none, none⟩)
      else (c, [req], Except.ok r.hdrs)

/-- replace_account_meta: POST of the prefixed metadata pairs, 202. -/
def replace_account_meta (c : StorageClient) (oracle : Oracle)
    (metapairs : List (String × String)) : SRes Unit :=
  match assert_account c with
  | some e => (c, [], Except.error e)
  | none =>
    let meta := prefix_keys metapairs "X-Account-Meta-"
    let req : HRequest := ⟨HMethod.hpost, path4url [acc c], [], meta, ""⟩
    match doRequest oracle req [202] with
    | Except.error e => (c, [req], Except.error e)
    | Except.ok _ => (c, [req], Except.ok ())

/-- delete_account_meta: read the account headers via get_account_info,
drop the given metadata key, 404 ClientError when it was not present, else
POST the remaining headers, 202. -/
def delete_account_meta (c : StorageClient) (oracle : Oracle)
    (metakey : String) : SRes Unit :=
  match get_account_info c oracle with
  | (_, reqs, Except.error e) => (c, reqs, Except.error e)
  | (_, reqs, Except.ok headers) =>
    let new_headers := filter_out headers ("X-Account-Meta-" ++ metakey)
    if new_headers.length = headers.length then
      (c, reqs,
       Except.error ⟨"X-Account-Meta-" ++ metakey ++ " not found", some 404, none⟩)
    else
      let req : HRequest := ⟨HMethod.hpost, path4url [acc c], [], new_headers, ""⟩
      match doRequest oracle req [202] with
      | Except.error e => (c, reqs ++ [req], Except.error e)
      | Except.ok _ => (c, reqs ++ [req], Except.ok ())

/-- create_container: PUT on the container, 201 or 202 accepted, 202 turned
into an already-exists ClientError. -/
def create_container (c : StorageClient) (oracle : Oracle)
    (container : String) : SRes Unit :=
  match assert_account c with
  | some e => (c, [], Except.error e)
  | none =>
    let req : HRequest := ⟨HMethod.hput, path4url [acc c, container], [], [], ""⟩
    match doRequest oracle req [201, 202] with
    | Except.error e => (c, [req], Except.error e)
    | Except.ok r =>
      if r.status = 202 then
        (c, [req], Except.error ⟨"Container already exists", some r.status, none⟩)
      else (c, [req], Except.ok ())

/-- get_container_info: HEAD on the container, 204 or 404 accepted, 404
turned into a does-not-exist ClientError. -/
def get_container_info (c : StorageClient) (oracle : Oracle)
    (container : String) : SRes (List (String × String)) :=
  match assert_account c with
  | some e => (c, [], Except.error e)
  | none =>
    let req : HRequest := ⟨HMethod.hhead, path4url [acc c, container], [], [], ""⟩
    match doRequest oracle req [204, 404] with
    | Except.error e => (c, [req], Except.error e)
    | Except.ok r =>
      if r.status = 404 then
        (c, [req], Except.error ⟨"Container does not exist", some r.status, none⟩)
      else (c, [req], Except.ok r.hdrs)

/-- delete_container: DELETE on the container, 204, 404 or 409 accepted,
404 and 409 turned into ClientErrors. -/
def delete_container (c : StorageClient) (oracle : Oracle)
    (container : String) : SRes Unit :=
  match assert_account c with
  | some e => (c, [], Except.error e)
  | none =>
    let req : HRequest := ⟨HMethod.hdelete, path4url [acc c, container], [], [], ""⟩
    match doRequest oracle req [204, 404, 409] with
    | Except.error e => (c, [req], Except.error e)
    | Except.ok r =>
      if r.status = 404 then
        (c, [req], Except.error ⟨"Container does not exist", some r.status, none⟩)
      else if r.status = 409 then
        (c, [req], Except.error ⟨"Container is not empty", some r.status, none⟩)
      else (c, [req], Except.ok ())

/-- list_containers: GET on the account with json format, 200 or 204. -/
def list_containers (c : StorageClient) (oracle : Oracle) : SRes String :=
  match assert_account c with
  | some e => (c, [], Except.error e)
  | none =>
    let req : HRequest :=
      ⟨HMethod.hget, path4url [acc c], [("format", "json")], [], ""⟩
    match doRequest oracle req [200, 204] with
    | Except.error e => (c, [req], Except.error e)
    | Except.ok r => (c, [req], Except.ok r.payload)

/-- create_object: PUT of the file contents (truncated when a size is
given) on the object path, 201. -/
def create_object (c : StorageClient) (oracle : Oracle) (obj : String)
    (f : String) (size : Option Nat) : SRes Unit :=
  match assert_container c with
  | some e => (c, [], Except.error e)
  | none =>
    let data :=
      match size with
      | some n => f.take n
      | none => f
    let req : HRequest :=
      ⟨HMethod.hput, path4url [acc c, cont c, obj], [], [], data⟩
    match doRequest oracle req [201] with
    | Except.error e => (c, [req], Except.error e)
    | Except.ok _ => (c, [req], Except.ok ())

/-- create_directory: PUT with empty data and the directory marker, 201. -/
def create_directory (c : StorageClient) (oracle : Oracle) (obj : String) :
    SRes Unit :=
  match assert_container c with
  | some e => (c, [], Except.error e)
  | none =>
    let req : HRequest :=
      ⟨HMethod.hput, path4url [acc c, cont c, obj], [("directory", "True")], [], ""⟩
    match doRequest oracle req [201] with
    | Except.error e => (c, [req], Except.error e)
    | Except.ok _ => (c, [req], Except.ok ())

/-- get_object_info: HEAD on the object, 200, returning the headers. -/
def get_object_info (c : StorageClient) (oracle : Oracle) (obj : String) :
    SRes (List (String × String)) :=
  match assert_container c with
  | some e => (c, [], Except.error e)
  | none =>
    let req : HRequest := ⟨HMethod.hhead, path4url [acc c, cont c, obj], [], [], ""⟩
    match doRequest oracle req [200] with
    | Except.error e => (c, [req], Except.error e)
    | Except.ok r => (c, [req], Except.ok r.hdrs)

/-- get_object_meta: the object headers filtered to the metadata prefix. -/
def get_object_meta (c : StorageClient) (oracle : Oracle) (obj : String) :
    SRes (List (String × String)) :=
  match get_object_info c oracle obj with
  | (_, reqs, Except.error e) => (c, reqs, Except.error e)
  | (_, reqs, Except.ok headers) =>
    (c, reqs, Except.ok (filter_in headers "X-Object-Meta-"))

/-- delete_object_meta: read the object headers, drop the given metadata
key, 404 ClientError when absent, else POST the remaining headers, 202. -/
def delete_object_meta (c : StorageClient) (oracle : Oracle)
    (metakey : String) (obj : String) : SRes Unit :=
  match get_object_info c oracle obj with
  | (_, reqs, Except.error e) => (c, reqs, Except.error e)
  | (_, reqs, Except.ok headers) =>
    let new_headers := filter_out headers ("X-Object-Meta-" ++ metakey)
    if new_headers.length = headers.length then
      (c, reqs,
       Except.error ⟨"X-Object-Meta-" ++ metakey ++ " not found", some 404, none⟩)
    else
      let req : HRequest :=
        ⟨HMethod.hpost, path4url [acc c, cont c, obj], [], new_headers, ""⟩
      match doRequest oracle req [202] with
      | Except.error e => (c, reqs ++ [req], Except.error e)
      | Except.ok _ => (c, reqs ++ [req], Except.ok ())

/-- replace_object: POST of the prefixed metadata pairs on the container
path, 202. -/
def replace_object (c : StorageClient) (oracle : Oracle)
    (metapairs : List (String × String)) : SRes Unit :=
  match assert_container c with
  | some e => (c, [], Except.error e)
  | none =>
    let meta := prefix_keys metapairs "X-Object-Meta-"
    let req : HRequest := ⟨HMethod.hpost, path4url [acc c, cont c], [], meta, ""⟩
    match doRequest oracle req [202] with
    | Except.error e => (c, [req], Except.error e)
    | Except.ok _ => (c, [req], Except.ok ())

/-- get_object: raw GET on the object, 200, returning the body and the
content length (header parse kept total here; the source would raise on a
missing or malformed header, a branch no claim depends on). -/
def get_object (c : StorageClient) (oracle : Oracle) (obj : String) :
    SRes (String × Nat) :=
  match assert_container c with
  | some e => (c, [], Except.error e)
  | none =>
    let req : HRequest := ⟨HMethod.hget, path4url [acc c, cont c, obj], [], [], ""⟩
    match doRequest oracle req [200] with
    | Except.error e => (c, [req], Except.error e)
    | Except.ok r =>
      let size := ((odGet r.hdrs "content-length").bind String.toNat?).getD 0
      (c, [req], Except.ok (r.payload, size))

/-- delete_object: DELETE on the object, 204 or 404 accepted, 404 turned
into a not-found ClientError. -/
def delete_object (c : StorageClient) (oracle : Oracle) (obj : String) :
    SRes Unit :=
  match assert_container c with
  | some e => (c, [], Except.error e)
  | none =>
    let req : HRequest := ⟨HMethod.hdelete, path4url [acc c, cont c, obj], [], [], ""⟩
    match doRequest oracle req [204, 404] with
    | Except.error e => (c, [req], Except.error e)
    | Except.ok r =>
      if r.status = 404 then
        (c, [req], Except.error ⟨"Object " ++ obj ++ " not found", some r.status, none⟩)
      else (c, [req], Except.ok ())

/-- list_objects: GET on the container with json format, 200, 204 or 404
accepted, 404 turned into an incorrect-account ClientError. -/
def list_objects (c : StorageClient) (oracle : Oracle) : SRes String :=
  match assert_container c with
  | some e => (c, [], Except.error e)
  | none =>
    let req : HRequest :=
      ⟨HMethod.hget, path4url [acc c, cont c], [("format", "json")], [], ""⟩
    match doRequest oracle req [200, 204, 404] with
    | Except.error e => (c, [req], Except.error e)
    | Except.ok r =>
      if r.status = 404 then
        (c, [req],
         Except.error ⟨"Incorrect account (" ++ acc c ++ ") for that container",
           some r.status, none⟩)
      else (c, [req], Except.ok r.payload)

/-- list_objects_in_path: GET on the container with json format and a path
parameter, 200, 204 or 404 accepted, 404 turned into an incorrect-account
ClientError. -/
def list_objects_in_path (c : StorageClient) (oracle : Oracle)
    (pathPfx : String) : SRes String :=
  match assert_container c with
  | some e => (c, [], Except.error e)
  | none =>
    let req : HRequest :=
      ⟨HMethod.hget, path4url [acc c, cont c],
       [("format", "json"), ("path", pathPfx)], [], ""⟩
    match doRequest oracle req [200, 204, 404] with
    | Except.error e => (c, [req], Except.error e)
    | Except.ok r =>
      if r.status = 404 then
        (c, [req],
         Except.error ⟨"Incorrect account (" ++ acc c ++ ") for that container",
           some r.status, none⟩)
      else (c, [req], Except.ok r.payload)

end KStorage

namespace KWrite

/-!
Embedding of Config.write of kamaki/cli/config.py as a sequence of effects
on the configuration file: open with mode w (truncate or create), chmod to
0600, write the stripped header, write the serialized configuration.  An
interrupted write is the prefix of this sequence up to the interruption
point.
-/

/-- The configuration file: its content (none when the file does not
exist) and its permission bits. -/
structure FileState where
  content : Option String
  mode : Option Nat
deriving DecidableEq

/-- HEADER.lstrip() of kamaki/cli/config.py. -/
def kamakiHeader : String :=
  "# Kamaki configuration file\n"

/-- Effect of open(self.path, w): truncate, or create an empty file. -/
def wOpen (fs : FileState) : FileState :=
  ⟨some "", fs.mode⟩

/-- Effect of os.chmod(self.path, 0600). -/
def wChmod (fs : FileState) : FileState :=
  ⟨fs.content, some 0o600⟩

/-- Effect of f.write(HEADER.lstrip()). -/
def wHeader (fs : FileState) : FileState :=
  ⟨fs.content.map (fun c => c ++ kamakiHeader), fs.mode⟩

/-- Effect of RawConfigParser.write(self, f), appending the serialized
configuration text. -/
def wBody (txt : String) (fs : FileState) : FileState :=
  ⟨fs.content.map (fun c => c ++ txt), fs.mode⟩

/-- The effect sequence of one Config.write call. -/
def writeSteps (txt : String) : List (FileState → FileState) :=
  [wOpen, wChmod, wHeader, wBody txt]

/-- The file after a write interrupted after n of the four steps. -/
def writePartial (txt : String) (n : Nat) (fs : FileState) : FileState :=
  ((writeSteps txt).take n).foldl (fun s f => f s) fs

/-- The file after a completed Config.write. -/
def configWrite (txt : String) (fs : FileState) : FileState :=
  writePartial txt 4 fs

end KWrite

namespace KCli

/-- Concrete one-command registry used by the dispatcher witnesses. -/
def wReg : Registry :=
  register []
    (command (some "nova") none none none none "server_list"
      (some "list servers") ["self"] 0 true)

/-- The registered server_list class of the witness registry. -/
def wSpec : CmdSpec :=
  command (some "nova") none none none none "server_list"
    (some "list servers") ["self"] 0 true

/-- A witness invocation with no positional arguments and no flags. -/
def wInvHelp : Invocation :=
  ⟨["kamaki"], ⟨false, none, none, none, none, false, false⟩, ["kamaki"],
   false, false, false, [], HandlerOutcome.ok none⟩

/-- A witness invocation resolving server list but passing one positional
argument too many. -/
def wInvArity : Invocation :=
  ⟨["kamaki", "server", "list"], ⟨false, none, none, none, none, false, false⟩,
   ["kamaki", "server", "list", "extra"], false, false, false, [],
   HandlerOutcome.ok none⟩

end KCli

/-! ## Shared lemmas about the ordered-dictionary embedding -/

theorem odGet_odSet_self {α β : Type} [BEq α] [LawfulBEq α]
    (l : List (α × β)) (k : α) (v : β) :
    odGet (odSet l k v) k = some v := by
  induction l with
  | nil => simp [odGet, odSet, List.find?]
  | cons e rest ih =>
    obtain ⟨k0, v0⟩ := e
    by_cases h : (k0 == k) = true
    · simp [odSet, h, odGet, List.find?]
    · simp only [odSet, h, Bool.false_eq_true, if_false]
      simpa [odGet, List.find?, h] using ih

namespace KConfig

/-- C1: Config.get returns the runtime override when one is set to a value,
else the persisted value when the section and key exist, else the built-in
default when defined, else absent; and after any subsequent set of the same
section and key to w, a set override is still returned (never replaced by
w), while without an override the freshly persisted w is returned. -/
theorem config_three_layer_precedence (c : Config) (sec opt v w : String) :
    (ovLookup c.overrides sec opt = some v →
      Config.get c sec opt = some v ∧
      Config.get (Config.set c sec opt w) sec opt = some v) ∧
    (ovLookup c.overrides sec opt = none →
      (∀ p, persLookup c.persisted sec opt = some p →
        Config.get c sec opt = some p) ∧
      (persLookup c.persisted sec opt = none →
        Config.get c sec opt = DEFAULTS sec opt) ∧
      Config.get (Config.set c sec opt w) sec opt = some w) := by
  have hset_ov : (Config.set c sec opt w).overrides = c.overrides := rfl
  have hset_pers :
      persLookup (Config.set c sec opt w).persisted sec opt = some w := by
    show persLookup
      (odSet c.persisted sec (odSet ((odGet c.persisted sec).getD []) opt.toLower w))
      sec opt = some w
    unfold persLookup
    rw [odGet_odSet_self]
    simp [odGet_odSet_self]
  refine ⟨fun hov => ⟨?_, ?_⟩, fun hov => ⟨fun p hp => ?_, fun hp => ?_, ?_⟩⟩
  · unfold Config.get
    rw [hov]
  · unfold Config.get
    rw [hset_ov, hov]
  · unfold Config.get
    rw [hov, hp]
  · unfold Config.get
    rw [hov, hp]
  · unfold Config.get
    rw [hset_ov, hov, hset_pers]

/-- Witness for config_three_layer_precedence on a concrete configuration
with an override, a persisted value and a default present. -/
theorem config_three_layer_precedence_witness :
    (ovLookup [("global", [("colors", some "O")])] "global" "colors" = some "O" ∧
      Config.get ⟨[("global", [("colors", "P")])], [("global", [("colors", some "O")])]⟩
        "global" "colors" = some "O") ∧
    (ovLookup ([] : List (String × List (String × Option String)))
        "global" "colors" = none ∧
      Config.get (Config.set ⟨[], []⟩ "global" "colors" "W") "global" "colors" =
        some "W") := by
  refine ⟨⟨by decide, ?_⟩, ⟨by decide, ?_⟩⟩
  · exact ((config_three_layer_precedence
      ⟨[("global", [("colors", "P")])], [("global", [("colors", some "O")])]⟩
      "global" "colors" "O" "W").1 (by decide)).1
  · exact ((config_three_layer_precedence ⟨[], []⟩ "global" "colors" "O" "W").2
      (by decide)).2.2

/-- C10: an override whose value is None behaves as if no override were
set: Config.get resolves to the persisted value or the default, so a
runtime override can never force a key to the missing value when one of
the lower layers defines it.  The same holds in the flat configuration
store the dispatcher overrides unconditionally for every default key. -/
theorem override_none_falls_through (c : Config) (sec opt : String) :
    (Config.get (Config.override c sec opt none) sec opt =
      match persLookup c.persisted sec opt with
      | some p => some p
      | none => DEFAULTS sec opt) ∧
    (∀ (fc : FlatConfig) (k : String),
      flatGet (flatOverride fc k PyVal.pnone) k = flatGetBase fc k) := by
  constructor
  · have hov : ovLookup (Config.override c sec opt none).overrides sec opt = none := by
      show ovLookup
        (odSet c.overrides sec (odSet ((odGet c.overrides sec).getD []) opt none))
        sec opt = none
      unfold ovLookup
      rw [odGet_odSet_self]
      simp [odGet_odSet_self]
    unfold Config.get
    rw [hov]
    exact rfl
  · intro fc k
    unfold flatGet flatOverride
    rw [odGet_odSet_self]
    simp [flatGetBase]

end KConfig

/-! ## Lemmas about space-joining -/

theorem sjoin_cons_cons (x y : String) (ys : List String) :
    sjoin (x :: y :: ys) = x ++ " " ++ sjoin (y :: ys) := rfl

theorem sjoin_ne_empty (L : List String) (h : ∀ s ∈ L, s ≠ "") (hL : L ≠ []) :
    sjoin L ≠ "" := by
  match L with
  | [] => exact absurd rfl hL
  | [x] => simpa [sjoin] using h x (by simp)
  | x :: y :: ys =>
    rw [sjoin_cons_cons]
    intro hc
    have h1 := congrArg String.length hc
    simp only [String.length_append] at h1
    have hsp : (" " : String).length = 1 := rfl
    have h0 : ("" : String).length = 0 := rfl
    omega

theorem sjoin_append_ne (A B : List String) (hA : A ≠ []) (hB : B ≠ []) :
    sjoin (A ++ B) = sjoin A ++ " " ++ sjoin B := by
  induction A with
  | nil => exact absurd rfl hA
  | cons x xs ih =>
    cases xs with
    | nil =>
      cases B with
      | nil => exact absurd rfl hB
      | cons b bs => simp [sjoin]
    | cons y ys =>
      have ih2 := ih (by simp)
      have h1 : sjoin ((x :: y :: ys) ++ B) = x ++ " " ++ sjoin ((y :: ys) ++ B) := rfl
      rw [h1, ih2, sjoin_cons_cons]
      simp [String.append_assoc]

namespace KCli

theorem renderReq_ne_empty (x : String) : renderReq x ≠ "" := by
  intro hc
  have h1 := congrArg String.length hc
  simp only [renderReq, String.length_append] at h1
  have hlt : ("<" : String).length = 1 := rfl
  have hgt : (">" : String).length = 1 := rfl
  have h0 : ("" : String).length = 0 := rfl
  omega

theorem renderOpt_ne_empty (x : String) : renderOpt x ≠ "" := by
  intro hc
  have h1 := congrArg String.length hc
  simp only [renderOpt, String.length_append] at h1
  have hlt : ("[" : String).length = 1 := rfl
  have hgt : ("]" : String).length = 1 := rfl
  have h0 : ("" : String).length = 0 := rfl
  omega

theorem sjoin_filter_append (A B : List String)
    (hA : ∀ s ∈ A, s ≠ "") (hB : ∀ s ∈ B, s ≠ "") :
    sjoin (([sjoin A, sjoin B]).filter (fun x => x ≠ "")) = sjoin (A ++ B) := by
  by_cases hAe : A = []
  · subst hAe
    by_cases hBe : B = []
    · subst hBe
      rfl
    · have hBne := sjoin_ne_empty B hB hBe
      simp [List.filter, hBne, sjoin]
  · have hAne := sjoin_ne_empty A hA hAe
    by_cases hBe : B = []
    · subst hBe
      simp [List.filter, hAne, sjoin]
    · have hBne := sjoin_ne_empty B hB hBe
      rw [sjoin_append_ne A B hAe hBe]
      simp [List.filter, hAne, hBne, sjoin]

/-- C4: the derived syntax renders, excluding the implicit receiver, the
parameters without a default first in declared order as angle-bracketed
names with underscores replaced by spaces, then the parameters with
defaults as square-bracketed names, all space-joined; in particular a main
with receiver plus (a, b with default) yields exactly "<a> [b]" and a main
with only the receiver yields the empty string. -/
theorem syn_from_signature :
    (∀ (specArgs : List String) (nd : Nat), nd ≤ (specArgs.drop 1).length →
      deriveSyn specArgs nd = specSyn specArgs nd) ∧
    deriveSyn ["self", "a", "b"] 1 = "<a> [b]" ∧
    deriveSyn ["self"] 0 = "" := by
  refine ⟨fun specArgs nd _ => ?_, by decide, by decide⟩
  unfold deriveSyn specSyn
  refine sjoin_filter_append _ _ ?_ ?_
  · intro s hs
    obtain ⟨a, _, rfl⟩ := List.mem_map.mp hs
    exact renderReq_ne_empty a
  · intro s hs
    obtain ⟨a, _, rfl⟩ := List.mem_map.mp hs
    exact renderOpt_ne_empty a

/-- Witness for syn_from_signature at the two-parameter signature of the
specification example. -/
theorem syn_from_signature_witness :
    1 ≤ ((["self", "a", "b"] : List String).drop 1).length ∧
    deriveSyn ["self", "a", "b"] 1 = specSyn ["self", "a", "b"] 1 := by
  exact ⟨by decide, syn_from_signature.1 ["self", "a", "b"] 1 (by decide)⟩

/-! ## Lemmas about the underscore partition -/

theorem partitionUnderscore_split (g n : List Char)
    (hg : g.contains '_' = false) :
    partitionUnderscore (g ++ '_' :: n) = some (g, n) := by
  induction g with
  | nil => simp [partitionUnderscore]
  | cons c g2 ih =>
    simp only [List.contains_cons, Bool.or_eq_false_iff, beq_eq_false_iff_ne] at hg
    have hc : ¬ (c = '_') := fun h => hg.1 h.symm
    rw [List.cons_append]
    simp only [partitionUnderscore, if_neg hc, ih hg.2]

theorem partitionUnderscore_isNone (l : List Char)
    (h : l.contains '_' = false) :
    partitionUnderscore l = none := by
  induction l with
  | nil => rfl
  | cons c l2 ih =>
    simp only [List.contains_cons, Bool.or_eq_false_iff, beq_eq_false_iff_ne] at h
    have hc : ¬ (c = '_') := fun hcc => h.1 hcc.symm
    simp only [partitionUnderscore, if_neg hc, ih h.2]

end KCli

namespace KCli

/-- C5 (amended): for a registered identifier containing an underscore the
derived group is the prefix before the first underscore and the name the
remainder; with no underscore the group is unset and the name is the whole
identifier; explicit non-empty group/name arguments take precedence over
the derived values, while an explicit empty string falls back to the
derived value (Python or-chaining). -/
theorem group_name_split :
    (∀ (g rest : String) (api d : Option String) (args : List String)
        (nd : Nat) (up : Bool), g.toList.contains '_' = false →
      (command api none none d none (g ++ "_" ++ rest) d args nd up).group = some g ∧
      (command api none none d none (g ++ "_" ++ rest) d args nd up).name = rest) ∧
    (∀ (s : String) (api d : Option String) (args : List String)
        (nd : Nat) (up : Bool), s.toList.contains '_' = false →
      (command api none none d none s d args nd up).group = none ∧
      (command api none none d none s d args nd up).name = s) ∧
    (∀ (eg en clsName : String) (api d : Option String) (args : List String)
        (nd : Nat) (up : Bool), eg ≠ "" → en ≠ "" →
      (command api (some eg) (some en) d none clsName d args nd up).group = some eg ∧
      (command api (some eg) (some en) d none clsName d args nd up).name = en) := by
  refine ⟨fun g rest api d args nd up hg => ?_,
          fun s api d args nd up hs => ?_,
          fun eg en clsName api d args nd up hg hn => ?_⟩
  · have ht : (g ++ "_" ++ rest).toList = g.toList ++ '_' :: rest.toList := by
      show (g ++ "_" ++ rest).data = g.data ++ '_' :: rest.data
      rw [String.data_append, String.data_append, List.append_assoc]
      rfl
    have hp : pyPartition (g ++ "_" ++ rest) = some (g, rest) := by
      unfold pyPartition
      rw [ht, partitionUnderscore_split _ _ hg]
      rfl
    constructor
    · show pyOrOpt none ((pyPartition (g ++ "_" ++ rest)).map (fun q => q.1)) = some g
      rw [hp]
      rfl
    · show pyOrStr none
        (match pyPartition (g ++ "_" ++ rest) with
         | some q => q.2
         | none => g ++ "_" ++ rest) = rest
      rw [hp]
      rfl
  · have hp : pyPartition s = none := by
      unfold pyPartition
      rw [partitionUnderscore_isNone _ hs]
    constructor
    · show pyOrOpt none ((pyPartition s).map (fun q => q.1)) = none
      rw [hp]
      rfl
    · show pyOrStr none
        (match pyPartition s with
         | some q => q.2
         | none => s) = s
      rw [hp]
      rfl
  · constructor
    · show pyOrOpt (some eg) _ = some eg
      simp [pyOrOpt, hg]
    · show pyOrStr (some en) _ = en
      simp [pyOrStr, hn]

/-- Witness for group_name_split at the server_list identifier, an
identifier without an underscore, and explicit non-empty arguments. -/
theorem group_name_split_witness :
    (("server" : String).toList.contains '_' = false ∧
      (command (some "nova") none none none none ("server" ++ "_" ++ "list")
        none ["self"] 0 true).group = some "server") ∧
    (("glance" : String).toList.contains '_' = false ∧
      (command (some "glance") none none none none "glance" none ["self"] 0
        false).group = none) ∧
    (("srv" : String) ≠ "" ∧
      (command none (some "srv") (some "ls") none none "server_list" none
        ["self"] 0 false).name = "ls") := by
  refine ⟨⟨by decide, ?_⟩, ⟨by decide, ?_⟩, ⟨by decide, ?_⟩⟩
  · exact (group_name_split.1 "server" "list" (some "nova") none ["self"] 0 true
      (by decide)).1
  · exact (group_name_split.2.1 "glance" (some "glance") none ["self"] 0 false
      (by decide)).1
  · exact (group_name_split.2.2 "srv" "ls" "server_list" none none ["self"] 0 false
      (by decide) (by decide)).2

/-- C5 counterexample: an explicit empty-string group argument supplied at
registration does not take precedence — the derived group wins. -/
theorem empty_group_arg_not_precedent :
    (command none (some "") none none none "server_list" none ["self"] 0
      true).group = some "server" ∧
    (some "server" : Option String) ≠ some "" := by
  constructor
  · rfl
  · decide

/-- C6: visibility is monotonic in the enabled-API set, for commands and
hence for groups, and a command is visible exactly when its api tag is
absent or belongs to the enabled set. -/
theorem visibility_monotone (reg : Registry) (cmds : List (String × CmdSpec))
    (S T : List String) (hST : ∀ a, a ∈ S → a ∈ T) :
    (∀ nm, nm ∈ availableCommands cmds S → nm ∈ availableCommands cmds T) ∧
    (∀ g, g ∈ availableGroups reg S → g ∈ availableGroups reg T) ∧
    (∀ nm, nm ∈ availableCommands cmds S ↔
      ∃ spec, (nm, spec) ∈ cmds ∧
        (spec.api = none ∨ ∃ a ∈ S, spec.api = some a)) := by
  have hvis_iff : ∀ (sp : CmdSpec) (L : List String),
      cmdVisible sp L = true ↔ (sp.api = none ∨ ∃ a ∈ L, sp.api = some a) := by
    intro sp L
    unfold cmdVisible
    cases hapi : sp.api with
    | none => simp
    | some a =>
      constructor
      · intro hm
        have hmem : a ∈ L := by simpa using hm
        exact Or.inr ⟨a, hmem, rfl⟩
      · rintro (h1 | ⟨b, hb, hba⟩)
        · cases h1
        · cases hba
          simpa using hb
  have hvis_mono : ∀ sp : CmdSpec, cmdVisible sp S = true → cmdVisible sp T = true := by
    intro sp h
    rcases (hvis_iff sp S).mp h with h1 | ⟨a, ha, h2⟩
    · exact (hvis_iff sp T).mpr (Or.inl h1)
    · exact (hvis_iff sp T).mpr (Or.inr ⟨a, hST a ha, h2⟩)
  refine ⟨fun nm hm => ?_, fun g hm => ?_, fun nm => ?_⟩
  · unfold availableCommands at hm ⊢
    obtain ⟨e, he, rfl⟩ := List.mem_map.mp hm
    obtain ⟨hec, hev⟩ := List.mem_filter.mp he
    exact List.mem_map.mpr ⟨e, List.mem_filter.mpr ⟨hec, hvis_mono e.2 hev⟩, rfl⟩
  · unfold availableGroups at hm ⊢
    obtain ⟨e, he, rfl⟩ := List.mem_map.mp hm
    obtain ⟨hec, hev⟩ := List.mem_filter.mp he
    refine List.mem_map.mpr ⟨e, List.mem_filter.mpr ⟨hec, ?_⟩, rfl⟩
    obtain ⟨cspec, hc1, hc2⟩ := List.any_eq_true.mp hev
    exact List.any_eq_true.mpr ⟨cspec, hc1, hvis_mono cspec.2 hc2⟩
  · unfold availableCommands
    constructor
    · intro hm
      obtain ⟨e, he, rfl⟩ := List.mem_map.mp hm
      obtain ⟨hec, hev⟩ := List.mem_filter.mp he
      exact ⟨e.2, by simpa using hec, (hvis_iff e.2 S).mp hev⟩
    · rintro ⟨spec, hmem, hvis⟩
      exact List.mem_map.mpr ⟨(nm, spec),
        List.mem_filter.mpr ⟨hmem, (hvis_iff spec S).mpr hvis⟩, rfl⟩

/-- Witness for visibility_monotone on a one-command group and the subset
nova of nova-with-synnefo. -/
theorem visibility_monotone_witness :
    (∀ a, a ∈ (["nova"] : List String) → a ∈ (["nova", "synnefo"] : List String)) ∧
    ("list" ∈ availableCommands
      [("list", command (some "nova") none none none none "server_list" none
          ["self"] 0 true)]
      ["nova", "synnefo"]) := by
  refine ⟨by decide, ?_⟩
  exact (visibility_monotone []
    [("list", command (some "nova") none none none none "server_list" none
        ["self"] 0 true)]
    ["nova"] ["nova", "synnefo"] (by decide)).1 "list" (by decide)

end KCli

namespace KStorage

theorem assert_account_of (c : StorageClient) (h : pyFalsy c.account = true) :
    assert_account c = some ⟨"Please provide an account", none, none⟩ := by
  simp [assert_account, h]

theorem assert_container_of (c : StorageClient)
    (h : pyFalsy c.account = true ∨ pyFalsy c.container = true) :
    ∃ e, assert_container c = some e := by
  rcases h with h | h
  · exact ⟨⟨"Please provide an account", none, none⟩,
      by simp [assert_container, assert_account_of c h]⟩
  · by_cases ha : pyFalsy c.account = true
    · exact ⟨⟨"Please provide an account", none, none⟩,
        by simp [assert_container, assert_account_of c ha]⟩
    · refine ⟨⟨"Please provide a container", none, none⟩, ?_⟩
      have ha2 : assert_account c = none := by
        simp [assert_account]
        simpa using ha
      simp [assert_container, ha2, h]

/-- C7: every StorageClient operation that requires an account (resp. a
container) raises a ClientError before issuing any HTTP request when the
account (resp. the account or container) context is unset or empty, and
the client state is unchanged. -/
theorem context_preconditions (c : StorageClient) (oracle : Oracle)
    (container obj metakey f pathPfx : String)
    (metapairs : List (String × String)) (size : Option Nat) :
    (pyFalsy c.account = true →
      get_account_info c oracle =
        (c, [], Except.error ⟨"Please provide an account", none, none⟩) ∧
      replace_account_meta c oracle metapairs =
        (c, [], Except.error ⟨"Please provide an account", none, none⟩) ∧
      delete_account_meta c oracle metakey =
        (c, [], Except.error ⟨"Please provide an account", none, none⟩) ∧
      create_container c oracle container =
        (c, [], Except.error ⟨"Please provide an account", none, none⟩) ∧
      get_container_info c oracle container =
        (c, [], Except.error ⟨"Please provide an account", none, none⟩) ∧
      delete_container c oracle container =
        (c, [], Except.error ⟨"Please provide an account", none, none⟩) ∧
      list_containers c oracle =
        (c, [], Except.error ⟨"Please provide an account", none, none⟩)) ∧
    (pyFalsy c.account = true ∨ pyFalsy c.container = true →
      (∃ e, create_object c oracle obj f size = (c, [], Except.error e)) ∧
      (∃ e, create_directory c oracle obj = (c, [], Except.error e)) ∧
      (∃ e, get_object_info c oracle obj = (c, [], Except.error e)) ∧
      (∃ e, get_object_meta c oracle obj = (c, [], Except.error e)) ∧
      (∃ e, delete_object_meta c oracle metakey obj = (c, [], Except.error e)) ∧
      (∃ e, replace_object c oracle metapairs = (c, [], Except.error e)) ∧
      (∃ e, get_object c oracle obj = (c, [], Except.error e)) ∧
      (∃ e, delete_object c oracle obj = (c, [], Except.error e)) ∧
      (∃ e, list_objects c oracle = (c, [], Except.error e)) ∧
      (∃ e, list_objects_in_path c oracle pathPfx = (c, [], Except.error e))) := by
  constructor
  · intro h
    have ha := assert_account_of c h
    refine ⟨?_, ?_, ?_, ?_, ?_, ?_, ?_⟩
    · simp [get_account_info, ha]
    · simp [replace_account_meta, ha]
    · simp [delete_account_meta, get_account_info, ha]
    · simp [create_container, ha]
    · simp [get_container_info, ha]
    · simp [delete_container, ha]
    · simp [list_containers, ha]
  · intro h
    obtain ⟨e, he⟩ := assert_container_of c h
    refine ⟨⟨e, ?_⟩, ⟨e, ?_⟩, ⟨e, ?_⟩, ⟨e, ?_⟩, ⟨e, ?_⟩, ⟨e, ?_⟩, ⟨e, ?_⟩,
            ⟨e, ?_⟩, ⟨e, ?_⟩, ⟨e, ?_⟩⟩
    · simp [create_object, he]
    · simp [create_directory, he]
    · simp [get_object_info, he]
    · simp [get_object_meta, get_object_info, he]
    · simp [delete_object_meta, get_object_info, he]
    · simp [replace_object, he]
    · simp [get_object, he]
    · simp [delete_object, he]
    · simp [list_objects, he]
    · simp [list_objects_in_path, he]

/-- Witness for context_preconditions on a client with no account and no
container, against an oracle that would always answer 200. -/
theorem context_preconditions_witness :
    pyFalsy (StorageClient.mk "u" "t" none none).account = true ∧
    get_account_info ⟨"u", "t", none, none⟩ (fun _ => ⟨200, [], ""⟩) =
      (⟨"u", "t", none, none⟩, [],
        Except.error ⟨"Please provide an account", none, none⟩) ∧
    (∃ e, list_objects ⟨"u", "t", none, none⟩ (fun _ => ⟨200, [], ""⟩) =
      (⟨"u", "t", none, none⟩, [], Except.error e)) := by
  have h := context_preconditions ⟨"u", "t", none, none⟩ (fun _ => ⟨200, [], ""⟩)
    "cont" "obj" "mk" "file" "pfx" [] none
  exact ⟨rfl, (h.1 rfl).1, (h.2 (Or.inl rfl)).2.2.2.2.2.2.2.2.1⟩

end KStorage

namespace KWrite

/-- C8 (amended): a completed Config.write leaves the file with owner-only
read and write permissions (mode 0600) and the header plus serialized
content; but the replacement is not atomic — the file is truncated in
place on open, before any content is written. -/
theorem write_permissions_set (txt : String) (fs : FileState) :
    (configWrite txt fs).mode = some 0o600 ∧
    (configWrite txt fs).content = some (kamakiHeader ++ txt) := by
  constructor
  · rfl
  · show some (("" ++ kamakiHeader) ++ txt) = some (kamakiHeader ++ txt)
    have h0 : ("" ++ kamakiHeader : String) = kamakiHeader := rfl
    rw [h0]

/-- C8 counterexample: a write interrupted right after the open step leaves
an empty file, which is neither the prior content nor the completed
content — the prior content is lost. -/
theorem truncate_loses_content :
    ¬ (∀ n : Nat, n ≤ 4 →
      (writePartial "[global]\n" n ⟨some "token = old\n", some 384⟩).content =
        (some "token = old\n" : Option String) ∨
      (writePartial "[global]\n" n ⟨some "token = old\n", some 384⟩).content =
        (configWrite "[global]\n" ⟨some "token = old\n", some 384⟩).content) := by
  intro h
  rcases h 1 (by decide) with h1 | h1
  · revert h1
    decide
  · revert h1
    decide

end KWrite

theorem odGet_isSome_of_mem {α β : Type} [BEq α] [LawfulBEq α]
    (l : List (α × β)) (e : α × β) (h : e ∈ l) :
    ∃ v, odGet l e.1 = some v := by
  induction l with
  | nil => cases h
  | cons x rest ih =>
    by_cases hx : (x.1 == e.1) = true
    · exact ⟨x.2, by simp [odGet, List.find?, hx]⟩
    · have hne : e ≠ x := by
        intro hh
        subst hh
        simp at hx
      have h2 : e ∈ rest := by
        rcases List.mem_cons.mp h with h1 | h1
        · exact absurd h1 hne
        · exact h1
      obtain ⟨v, hv⟩ := ih h2
      exact ⟨v, by simpa [odGet, List.find?, hx] using hv⟩

namespace KCli

theorem odGet_of_avail (cmds : List (String × CmdSpec)) (apis : List String)
    (nm : String)
    (h : (availableCommands cmds apis).contains nm = true) :
    ∃ spec, odGet cmds nm = some spec := by
  have hmem : nm ∈ availableCommands cmds apis := by simpa using h
  unfold availableCommands at hmem
  obtain ⟨e, he, rfl⟩ := List.mem_map.mp hmem
  obtain ⟨hec, _⟩ := List.mem_filter.mp he
  exact odGet_isSome_of_mem cmds e hec

theorem invokeMain_ok (spec : CmdSpec) (n : Nat) (b : HandlerOutcome)
    (r : Option Nat) (h : invokeMain spec n b = HandlerOutcome.ok r) :
    b = HandlerOutcome.ok r := by
  unfold invokeMain at h
  split at h
  · cases h
  · exact h

theorem invokeMain_typeError (spec : CmdSpec) (n : Nat) (b : HandlerOutcome)
    (h : b = HandlerOutcome.typeErrorRaised ∨
      n < spec.nargs - spec.ndefaults ∨ spec.nargs < n) :
    invokeMain spec n b = HandlerOutcome.typeErrorRaised := by
  rcases h with rfl | h | h
  · simp [invokeMain]
  · simp [invokeMain, h]
  · simp [invokeMain, h]

theorem mainRun_resolve (reg : Registry) (inv : Invocation) (s : String)
    (hc : inv.configError = false)
    (hs : enabledApisVal inv = PyVal.pstr s) :
    mainRun reg inv = mainResolve reg inv (pySplit s) := by
  simp [mainRun, hc, hs]

theorem enabledApisVal_pstr (inv : Invocation) (h : inv.opts.apis = none) :
    enabledApisVal inv =
      PyVal.pstr ((odGet inv.fileVals "apis").getD "nova synnefo glance plankton") := by
  rcases ho : odGet inv.fileVals "apis" with _ | s2 <;>
    [skip; skip] <;>
  · simp [enabledApisVal, cfgOverridden, defaultKeys, flatOverride, flatGet,
      flatGetBase, odSet, odGet, optVal, h, ho, CONFIG_DEFAULTS, List.find?]
    unfold odGet at ho
    rw [ho]

end KCli

namespace KCli

/-- C2 (amended): whenever the dispatcher itself returns an exit status it
is one of 0, 1 and 2 (the handlers of this program return None or 1,
reflected in the hypothesis on the abstracted handler body), and the
enumerated causes map exactly as claimed — help shown by request gives 0,
resolution failures give 1, a TypeError gives 1 with help, a ClientError
gives 2 with its message logged at error level and its details at info
level; but the taxonomy is not exhaustive: a malformed option at the
strict second parse makes optparse exit the process with status 2 without
a ClientError and without logging, and any handler exception other than
TypeError and ClientError escapes main uncaught (as does the AttributeError
of an api flag, shown by the counterexample), producing no dispatcher exit
status. -/
theorem exit_code_taxonomy (reg : Registry) (inv : Invocation) (s : String)
    (hs : enabledApisVal inv = PyVal.pstr s)
    (hr : ∀ r, inv.body = HandlerOutcome.ok r → r = none ∨ r = some 1) :
    (∀ v, (mainRun reg inv).1 = MainOutcome.ret v →
      pyExit v = 0 ∨ pyExit v = 1 ∨ pyExit v = 2) ∧
    (inv.configError = false →
      (inv.argsFirst.length < 2 →
        mainRun reg inv = (MainOutcome.ret (some 0),
          ⟨1, some (availableGroups reg (pySplit s)), none, []⟩)) ∧
      (¬ inv.argsFirst.length < 2 →
        (availableGroups reg (pySplit s)).contains
          (some (inv.argsFirst.getD 1 "")) = false →
        mainRun reg inv = (MainOutcome.ret (some 1),
          ⟨1, some (availableGroups reg (pySplit s)), none, []⟩)) ∧
      (¬ inv.argsFirst.length < 2 →
        (availableGroups reg (pySplit s)).contains
          (some (inv.argsFirst.getD 1 "")) = true →
        inv.argsFirst.length < 3 →
        mainRun reg inv = (MainOutcome.ret (some 0),
          ⟨1, none,
           some (availableCommands
             ((odGet reg (some (inv.argsFirst.getD 1 ""))).getD [])
             (pySplit s)), []⟩)) ∧
      (¬ inv.argsFirst.length < 2 →
        (availableGroups reg (pySplit s)).contains
          (some (inv.argsFirst.getD 1 "")) = true →
        ¬ inv.argsFirst.length < 3 →
        (availableCommands
          ((odGet reg (some (inv.argsFirst.getD 1 ""))).getD [])
          (pySplit s)).contains (inv.argsFirst.getD 2 "") = false →
        mainRun reg inv = (MainOutcome.ret (some 1),
          ⟨1, none,
           some (availableCommands
             ((odGet reg (some (inv.argsFirst.getD 1 ""))).getD [])
             (pySplit s)), []⟩)) ∧
      (∀ spec : CmdSpec, ¬ inv.argsFirst.length < 2 →
        (availableGroups reg (pySplit s)).contains
          (some (inv.argsFirst.getD 1 "")) = true →
        ¬ inv.argsFirst.length < 3 →
        (availableCommands
          ((odGet reg (some (inv.argsFirst.getD 1 ""))).getD [])
          (pySplit s)).contains (inv.argsFirst.getD 2 "") = true →
        odGet ((odGet reg (some (inv.argsFirst.getD 1 ""))).getD [])
          (inv.argsFirst.getD 2 "") = some spec →
        (inv.secondParseFails = true →
          mainRun reg inv = (MainOutcome.sysExit 2, noOut)) ∧
        (inv.secondParseFails = false → inv.helpSecond = true →
          mainRun reg inv = (MainOutcome.ret (some 0), ⟨1, none, none, []⟩)) ∧
        (inv.secondParseFails = false → inv.helpSecond = false →
          invokeMain spec (inv.argsSecond.drop 3).length inv.body =
            HandlerOutcome.typeErrorRaised →
          mainRun reg inv = (MainOutcome.ret (some 1), ⟨1, none, none, []⟩)) ∧
        (∀ m d, inv.secondParseFails = false → inv.helpSecond = false →
          invokeMain spec (inv.argsSecond.drop 3).length inv.body =
            HandlerOutcome.clientErrorRaised m d →
          mainRun reg inv = (MainOutcome.ret (some 2),
            ⟨0, none, none,
             [(LogLevel.errorLvl, m), (LogLevel.infoLvl, d)]⟩)) ∧
        (∀ exc, inv.secondParseFails = false → inv.helpSecond = false →
          invokeMain spec (inv.argsSecond.drop 3).length inv.body =
            HandlerOutcome.otherErrorRaised exc →
          mainRun reg inv = (MainOutcome.crash exc, noOut)))) := by
  refine ⟨?_, fun hc => ⟨fun h2 => ?_, fun h2 hg => ?_, fun h2 hg h3 => ?_,
    fun h2 hg h3 hn => ?_, fun spec h2 hg h3 hn hspec =>
      ⟨fun hsp => ?_, fun hsp hh => ?_, fun hsp hh hte => ?_,
       fun m d hsp hh hce => ?_, fun exc hsp hh hoe => ?_⟩⟩⟩
  · intro v hv
    by_cases hcc : inv.configError
    · simp [mainRun, hcc] at hv
      subst hv
      simp [pyExit]
    · have hc2 : inv.configError = false := by simpa using hcc
      rw [mainRun_resolve reg inv s hc2 hs] at hv
      simp only [mainResolve] at hv
      split at hv
      · injection hv with h
        subst h
        simp [pyExit]
      · split at hv
        · split at hv
          · injection hv with h
            subst h
            simp [pyExit]
          · split at hv
            · rename_i hn2
              split at hv
              · rename_i heq
                obtain ⟨sp, hsp2⟩ := odGet_of_avail _ _ _ hn2
                rw [hsp2] at heq
                cases heq
              · split at hv
                · injection hv
                · split at hv
                  · injection hv with h
                    subst h
                    simp [pyExit]
                  · split at hv
                    · rename_i r hok
                      injection hv with h
                      subst h
                      rcases hr r (invokeMain_ok _ _ _ _ hok) with rfl | rfl
                      · simp [pyExit]
                      · simp [pyExit]
                    · injection hv with h
                      subst h
                      simp [pyExit]
                    · injection hv with h
                      subst h
                      simp [pyExit]
                    · injection hv
            · injection hv with h
              subst h
              simp [pyExit]
        · injection hv with h
          subst h
          simp [pyExit]
  · rw [mainRun_resolve reg inv s hc hs]
    simp only [mainResolve]
    rw [if_pos h2]
  · rw [mainRun_resolve reg inv s hc hs]
    simp only [mainResolve]
    have hg2 : ¬ ((availableGroups reg (pySplit s)).contains
        (some (inv.argsFirst.getD 1 "")) = true) := by
      simp only [hg]
      decide
    rw [if_neg h2, if_neg hg2]
  · rw [mainRun_resolve reg inv s hc hs]
    simp only [mainResolve]
    rw [if_neg h2, if_pos hg, if_pos h3]
  · rw [mainRun_resolve reg inv s hc hs]
    simp only [mainResolve]
    have hn2 : ¬ ((availableCommands
        ((odGet reg (some (inv.argsFirst.getD 1 ""))).getD [])
        (pySplit s)).contains (inv.argsFirst.getD 2 "") = true) := by
      simp only [hn]
      decide
    rw [if_neg h2, if_pos hg, if_neg h3, if_neg hn2]
  · rw [mainRun_resolve reg inv s hc hs]
    simp only [mainResolve]
    rw [if_neg h2, if_pos hg, if_neg h3, if_pos hn]
    simp only [hspec]
    rw [if_pos hsp]
  · rw [mainRun_resolve reg inv s hc hs]
    simp only [mainResolve]
    rw [if_neg h2, if_pos hg, if_neg h3, if_pos hn]
    simp only [hspec]
    rw [if_neg (by simp [hsp]), if_pos hh]
  · rw [mainRun_resolve reg inv s hc hs]
    simp only [mainResolve]
    rw [if_neg h2, if_pos hg, if_neg h3, if_pos hn]
    simp only [hspec, hte]
    simp [hsp, hh]
  · rw [mainRun_resolve reg inv s hc hs]
    simp only [mainResolve]
    rw [if_neg h2, if_pos hg, if_neg h3, if_pos hn]
    simp only [hspec, hce]
    simp [hsp, hh]
  · rw [mainRun_resolve reg inv s hc hs]
    simp only [mainResolve]
    rw [if_neg h2, if_pos hg, if_neg h3, if_pos hn]
    simp only [hspec, hoe]
    simp [hsp, hh]

end KCli

namespace KCli

/-- Witness for exit_code_taxonomy: the zero-positional-argument invocation
against a one-command registry exits 0 and lists the visible groups. -/
theorem exit_code_taxonomy_witness :
    enabledApisVal wInvHelp = PyVal.pstr "nova synnefo glance plankton" ∧
    wInvHelp.configError = false ∧
    wInvHelp.argsFirst.length < 2 ∧
    mainRun wReg wInvHelp = (MainOutcome.ret (some 0),
      ⟨1, some (availableGroups wReg (pySplit "nova synnefo glance plankton")),
       none, []⟩) := by
  refine ⟨by decide, rfl, by decide, ?_⟩
  exact ((exit_code_taxonomy wReg wInvHelp "nova synnefo glance plankton"
    (by decide)
    (by
      intro r h
      injection h with h2
      subst h2
      exact Or.inl rfl)).2 rfl).1 (by decide)

/-- C2 counterexample: the exit codes do not come solely from the claimed
three-way taxonomy.  An invocation carrying one api flag makes the
dispatcher raise an uncaught AttributeError (the stored override is a list
and the split method is called on it), so no dispatcher exit status is
produced; a handler raising ValueError (server info with a non-numeric id)
likewise escapes uncaught; and a malformed option at the strict second
parse exits with status 2 from optparse without any ClientError or
logging. -/
theorem api_flag_crashes_dispatch :
    mainRun kamakiRegistry
      ⟨["kamaki", "server", "list"],
       ⟨false, some ["nova"], none, none, none, false, false⟩,
       ["kamaki", "server", "list"], false, false, false, [],
       HandlerOutcome.ok none⟩ =
      (MainOutcome.crash "AttributeError", noOut) ∧
    (¬ ∃ v, (mainRun kamakiRegistry
      ⟨["kamaki", "server", "list"],
       ⟨false, some ["nova"], none, none, none, false, false⟩,
       ["kamaki", "server", "list"], false, false, false, [],
       HandlerOutcome.ok none⟩).1 = MainOutcome.ret v) ∧
    mainRun kamakiRegistry
      ⟨["kamaki", "server", "info"],
       ⟨false, none, none, none, none, false, false⟩,
       ["kamaki", "server", "info", "abc"], false, false, false, [],
       HandlerOutcome.otherErrorRaised "ValueError"⟩ =
      (MainOutcome.crash "ValueError", noOut) ∧
    mainRun kamakiRegistry
      ⟨["kamaki", "server", "list"],
       ⟨false, none, none, none, none, false, false⟩,
       ["kamaki", "server", "list"], false, true, false, [],
       HandlerOutcome.ok none⟩ =
      (MainOutcome.sysExit 2, noOut) := by
  refine ⟨rfl, ?_, by decide, by decide⟩
  rintro ⟨v, hv⟩
  rw [show (mainRun kamakiRegistry
      ⟨["kamaki", "server", "list"],
       ⟨false, some ["nova"], none, none, none, false, false⟩,
       ["kamaki", "server", "list"], false, false, false, [],
       HandlerOutcome.ok none⟩).1 = MainOutcome.crash "AttributeError" from rfl] at hv
  cases hv

/-- C9: any TypeError escaping the handler invocation — a wrong positional
argument count or a TypeError raised anywhere inside the handler body — is
reported identically as a usage error: help is printed once and the exit
status is 1, and the fault never propagates out of main. -/
theorem type_error_is_usage_error (reg : Registry) (inv : Invocation)
    (s : String) (spec : CmdSpec)
    (hc : inv.configError = false)
    (hs : enabledApisVal inv = PyVal.pstr s)
    (h2 : ¬ inv.argsFirst.length < 2)
    (hg : (availableGroups reg (pySplit s)).contains
      (some (inv.argsFirst.getD 1 "")) = true)
    (h3 : ¬ inv.argsFirst.length < 3)
    (hn : (availableCommands
      ((odGet reg (some (inv.argsFirst.getD 1 ""))).getD [])
      (pySplit s)).contains (inv.argsFirst.getD 2 "") = true)
    (hspec : odGet ((odGet reg (some (inv.argsFirst.getD 1 ""))).getD [])
      (inv.argsFirst.getD 2 "") = some spec)
    (hsp : inv.secondParseFails = false)
    (hh : inv.helpSecond = false)
    (hte : inv.body = HandlerOutcome.typeErrorRaised ∨
      (inv.argsSecond.drop 3).length < spec.nargs - spec.ndefaults ∨
      spec.nargs < (inv.argsSecond.drop 3).length) :
    mainRun reg inv = (MainOutcome.ret (some 1), ⟨1, none, none, []⟩) := by
  rw [mainRun_resolve reg inv s hc hs]
  simp only [mainResolve]
  rw [if_neg h2, if_pos hg, if_neg h3, if_pos hn]
  simp only [hspec,
    invokeMain_typeError spec (inv.argsSecond.drop 3).length inv.body hte]
  simp [hsp, hh]

/-- Witness for type_error_is_usage_error: server list called with one
positional argument too many exits 1 with help printed. -/
theorem type_error_is_usage_error_witness :
    wInvArity.body = HandlerOutcome.ok none ∧
    mainRun wReg wInvArity = (MainOutcome.ret (some 1), ⟨1, none, none, []⟩) := by
  refine ⟨rfl, ?_⟩
  exact type_error_is_usage_error wReg wInvArity "nova synnefo glance plankton"
    wSpec rfl (by decide) (by decide) (by decide) (by decide) (by decide)
    (by decide) rfl rfl (Or.inr (Or.inr (by decide)))

/-- C3: evaluation at the failing input — with api flags on the command
line the first parse accumulates them into a list (shown by collectApis on
the argv), the dispatcher stores that list as the apis override, and then
crashes with an uncaught AttributeError before resolving the enabled set,
instead of resolving it without error as claimed. -/
theorem api_override_crash_eval :
    mainRun kamakiRegistry
      ⟨["kamaki", "server", "list"],
       ⟨false,
        apisOptOf ["kamaki", "--api", "nova", "--api", "glance", "server", "list"],
        none, none, none, false, false⟩,
       ["kamaki", "server", "list"], false, false, false, [],
       HandlerOutcome.ok none⟩ =
      (MainOutcome.crash "AttributeError", noOut) ∧
    collectApis ["kamaki", "--api", "nova", "--api", "glance", "server", "list"] =
      ["nova", "glance"] ∧
    apisOptOf ["kamaki", "--api", "nova", "--api", "glance", "server", "list"] =
      some ["nova", "glance"] := by
  exact ⟨rfl, rfl, rfl⟩

end KCli
